import Mathlib

/-!
Verification development for the `nic` irrigation controller core.

Shallow embedding conventions:
* Rust `f64` is modelled exactly as `ℚ` (the algorithms only combine values with
  `+ - * /`, `max`, `ceil`; the claims under study concern the algebraic
  structure of those formulas, not rounding).
* `i64` is modelled as `Int` (the timestamps and durations involved stay far
  from the 64-bit range, so wrap-around is not reachable); `usize` indices that
  deliberately wrap (`Cycle::next_sector` uses `wrapping_add` on a
  `usize::MAX` sentinel) are modelled as `Nat` with an explicit `% 2^64`.
* `u32` sector ids are modelled as `Nat` (no arithmetic is performed on them).
* Fallible code (an `unwrap` on a `HashMap` lookup, `Vec::remove(0)` on an
  empty vector, an out-of-bounds index, an `assert!`) is modelled with
  `Option`: `none` marks a panic of the source.
* The sector catalog (`HashMap<u32, SectorInfo>`) is modelled as a
  `List SectorInfo`; a keyed update touches the entries with the matching id
  using their own fields, which agrees with the map when ids are unique.
* The sensor controller and the database are effect sinks: operations return
  the list of emitted actuation commands and logged events.
-/

set_option allowUnsafeReducibility true in
attribute [semireducible] Rat.add Rat.mul Rat.sub Rat.div Rat.inv Rat.neg Rat.ofScientific

namespace Nic

/-- `utils::sod`: start of day.  Rust `%` truncates toward zero, which is
`Int.tmod`. -/
def sod (ts : Int) : Int := ts - Int.tmod ts 86400

/-- `utils::get_week_day_from_ts(t).num_days_from_sunday()`, the weekday index
of a unix timestamp with Sunday = 0 (chrono numbering).  The unix epoch
1970-01-01 was a Thursday (index 4); chrono floors the division into days. -/
def num_days_from_sunday (t : Int) : Int := (Int.fdiv t 86400 + 4).emod 7

/-- Modelled from the spec: `SECTOR_TRANSITION_SECS`, the transition slack
between consecutive sectors of a plan.  The constant is referenced by
`watering_alg.rs` but its defining module is not among the provided sources;
the spec fixes the default at 20 seconds. -/
def SECTOR_TRANSITION_SECS : Int := 20

/-- Modelled from the spec: `DAILY_PERCOLATION_FACTOR`.  The constant is
referenced by `watering_alg.rs` but its defining module is not among the
provided sources; the spec gives `percolation_cm = percolation_rate * 0.1 * 24`. -/
def DAILY_PERCOLATION_FACTOR : ℚ := (0.1 : ℚ) * 24

/-- Modelled from the spec: `SECS_TO_HOUR_CONV`.  The constant is referenced by
`state_machine.rs` but its defining module is not among the provided sources;
the spec gives `water applied = elapsed_seconds * sprinkler_debit / 3600`. -/
def SECS_TO_HOUR_CONV : ℚ := 1 / 3600

/-- `ds::SectorInfo`. -/
structure SectorInfo where
  id : Nat
  sprinkler_debit : ℚ
  percolation_rate : ℚ
  max_duration : Int
  weekly_target : ℚ
  progress : ℚ
  last_water : Int
deriving DecidableEq, Repr

/-- `ds::WaterSector`: a plan element `(sector id, start, duration)`. -/
structure WaterSector where
  id : Nat
  start : Int
  duration : Int
deriving DecidableEq, Repr

/-- `ds::DailyPlan` is a newtype over `Vec<WaterSector>`. -/
abbrev DailyPlan := List WaterSector

/-- `water_window::WaterWin`. -/
structure WaterWin where
  hour_start : Int
  duration_secs : Int
  day_start_time : Int
  day_end_time : Int
deriving DecidableEq, Repr

/-- `WaterWin::new`. -/
def WaterWin.new (current_time hour_start duration_hours : Int) : WaterWin :=
  let day_start_time := sod current_time + hour_start * 3600
  let duration_secs := duration_hours * 3600
  { hour_start := hour_start, duration_secs := duration_secs,
    day_start_time := day_start_time,
    day_end_time := day_start_time + duration_secs - 1 }

/-- `WaterWin::next_mut` / `WaterWin::next`: shift the window one day forward. -/
def WaterWin.next (w : WaterWin) : WaterWin :=
  { w with day_start_time := w.day_start_time + 86400,
           day_end_time := w.day_end_time + 86400 }

/-- `WaterWin::roll_window`: a single conditional shift (no loop in the source). -/
def WaterWin.roll_window (w : WaterWin) (current_time : Int) : WaterWin :=
  if w.day_end_time < current_time then w.next else w

/-- `WaterWin::is_within`. -/
def WaterWin.is_within (w : WaterWin) (time : Int) : Bool :=
  decide (w.day_start_time ≤ time) && decide (time ≤ w.day_end_time)

/-- `utils::load_sectors_into_hashmap`: the catalog is loaded with `progress`
reset to 0 (map modelled as the list of its values). -/
def load_sectors_into_hashmap (sectors : List SectorInfo) : List SectorInfo :=
  sectors.map fun s => { s with progress := 0 }

/-- `watering_alg::calc_daily_percolation`. -/
def calc_daily_percolation (sector : SectorInfo) : ℚ :=
  sector.percolation_rate * DAILY_PERCOLATION_FACTOR

/-- `watering_alg::adjust_daily_sector_progress`. -/
def adjust_daily_sector_progress (sectors : List SectorInfo)
    (daily_et daily_rain : ℚ) (new_week : Bool) : List SectorInfo :=
  let adjustment := daily_et - daily_rain + if new_week then (2.5 : ℚ) else 0
  sectors.map fun sector =>
    let percolation := max (calc_daily_percolation sector) 0
    { sector with progress := max (sector.progress - adjustment - percolation) 0 }

/-- The progress part of `StateMachine::do_daily_adjustments`: the `new_week`
flag is `weekday(current_time) == Monday`. -/
def do_daily_progress_adjust (current_time : Int) (daily_et daily_rain : ℚ)
    (sectors : List SectorInfo) : List SectorInfo :=
  adjust_daily_sector_progress sectors daily_et daily_rain
    (decide (num_days_from_sunday current_time = 1))

/-- `watering_alg::calc_irrigation_time`. -/
def calc_irrigation_time (sector : SectorInfo) : Option Int :=
  let remaining_target := sector.weekly_target - sector.progress
  if remaining_target ≤ 0 then none
  else some (min (⌈remaining_target / sector.sprinkler_debit * 3600⌉) sector.max_duration)

/-- One iteration of the sector loop of
`watering_alg::get_next_watering_for_day`: returns the (possibly
progress-credited) sector, the planned element if one was pushed, the
`need_evening` contribution, and the new cursor. -/
def planSector (remaining_days : Int) (morning : Bool) (s : SectorInfo)
    (water_time : Int) : SectorInfo × Option WaterSector × Bool × Int :=
  let remaining_weekly_need := max (s.weekly_target - s.progress) 0
  let daily_capacity := ((s.max_duration : ℚ) / 3600) * s.sprinkler_debit
  if remaining_weekly_need ≤ daily_capacity * ((remaining_days - 1 : Int) : ℚ) then
    (s, none, false, water_time)
  else
    let need_evening := decide (daily_capacity * ((remaining_days : Int) : ℚ) < remaining_weekly_need)
    let secs_irrigation_time := (calc_irrigation_time s).getD 0
    if secs_irrigation_time ≤ 300 then
      (s, none, need_evening, water_time)
    else
      let proposed_start :=
        cond morning (water_time - secs_irrigation_time - SECTOR_TRANSITION_SECS)
          water_time
      let s' := { s with progress :=
        s.progress + (secs_irrigation_time : ℚ) * (s.sprinkler_debit / 3600) }
      let water_time' :=
        cond morning proposed_start
          (water_time + secs_irrigation_time + SECTOR_TRANSITION_SECS)
      (s', some ⟨s.id, proposed_start, secs_irrigation_time⟩, need_evening, water_time')

/-- The sector loop of `get_next_watering_for_day`, folded over the iteration
order (already reversed by the caller for a morning pass). -/
def planPass (remaining_days : Int) (morning : Bool) :
    List SectorInfo → Int → List SectorInfo × List WaterSector × Bool
  | [], _ => ([], [], false)
  | s :: rest, water_time =>
    let step := planSector remaining_days morning s water_time
    let tail := planPass remaining_days morning rest step.2.2.2
    (step.1 :: tail.1, step.2.1.toList ++ tail.2.1, step.2.2.1 || tail.2.2)

/-- `watering_alg::get_next_watering_for_day`: returns the updated sectors, the
`need_evening` flag and the optional plan (in push order). -/
def get_next_watering_for_day (sectors : List SectorInfo) (timeframe : WaterWin)
    (remaining_days : Int) (morning : Bool) :
    List SectorInfo × Bool × Option DailyPlan :=
  let water_time := cond morning timeframe.day_end_time timeframe.day_start_time
  let r := planPass remaining_days morning (cond morning sectors.reverse sectors)
    water_time
  (cond morning r.1.reverse r.1, r.2.2, if r.2.1.isEmpty then none else some r.2.1)

/-- The `for rem_days in (0..remaining_days).rev()` loop of
`watering_alg::generate_daily_plan`; the fuel is the number of remaining
iterations, so the current `rem_days` value is `fuel - 1`. -/
def genLoop : Nat → List SectorInfo → WaterWin → List DailyPlan
  | 0, _, _ => []
  | k + 1, sectors, timeframe =>
    if ¬ sectors.all (fun sec => decide (sec.progress < sec.weekly_target)) then
      genLoop k sectors timeframe.next
    else
      let m := get_next_watering_for_day sectors timeframe (k : Int) true
      let timeframe' := timeframe.next
      let after :=
        cond m.2.1
          ((get_next_watering_for_day m.1 timeframe' (k : Int) false).1,
            m.2.2.toList
              ++ (get_next_watering_for_day m.1 timeframe' (k : Int) false).2.2.toList)
          (m.1, m.2.2.toList)
      if after.2.isEmpty then genLoop k after.1 timeframe' else after.2

/-- `watering_alg::generate_daily_plan`. -/
def generate_daily_plan (sectors : List SectorInfo) (remaining_days : Int)
    (timeframe : WaterWin) : List DailyPlan :=
  genLoop remaining_days.toNat sectors timeframe

/-- `watering_alg::calculate_remaining_days`. -/
def calculate_remaining_days (current_time : Int) : Int :=
  7 - num_days_from_sunday current_time

/-- Stable insertion of a `WaterSector` by its `start` key. -/
def insertByStart (x : WaterSector) : List WaterSector → List WaterSector
  | [] => [x]
  | y :: ys => if x.start ≤ y.start then x :: y :: ys else y :: insertByStart x ys

/-- `Vec::sort_by_key(|sector| sector.start)`: a stable sort by start time. -/
def sortByStart : List WaterSector → List WaterSector
  | [] => []
  | x :: xs => insertByStart x (sortByStart xs)

/-- `watering_alg::calc_daily_plan`: generate, then sort each plan by start. -/
def calc_daily_plan (sectors : List SectorInfo) (current_time : Int)
    (timeframe : WaterWin) : List DailyPlan :=
  (generate_daily_plan sectors (calculate_remaining_days current_time) timeframe).map
    sortByStart

/-- `modes::Mode`: the source module for this enum is not among the provided
sources; modelled from the spec (`Auto | Manual | Wizard`). -/
inductive Mode where
  | auto
  | manual
  | wizard
deriving DecidableEq, Repr

/-- `ds::WeatherSignal` as used by `state_machine.rs` and the spec taxonomy
(`RainStart | RainStop | WindHigh | WindLow`). -/
inductive WeatherSignal where
  | rainStart
  | rainStop
  | windHigh
  | windLow
deriving DecidableEq, Repr

/-- The `ds::CtrlSignal` variants `handle_signal` matches on; the query
variants (`GetState`, `GetCycle`, ...) fall through a wildcard arm and do not
touch the machine. -/
inductive CtrlSignal where
  | weather (s : WeatherSignal)
  | stopMachine
  | chgMode (m : Mode)
deriving DecidableEq, Repr

/-- `state_machine::SMState`; `PausedData`'s boxed prior state and signal
vector are inlined into the `paused` constructor. -/
inductive SMState where
  | idle
  | watering (sec : WaterSector)
  | paused (prior : SMState) (signals : List WeatherSignal)
deriving DecidableEq, Repr

/-- `ds::WateringEvent`. -/
structure WateringEvent where
  cycle_id : Option Nat
  sector : WaterSector
  water_applied : ℚ
  mode : Mode
deriving DecidableEq, Repr

/-- Commands to the sensor controller and records sent to the database,
collected as effects. -/
inductive Effect where
  | activate (id : Nat)
  | deactivate (id : Nat)
  | logEvent (ev : WateringEvent)
deriving DecidableEq, Repr

/-- `usize::MAX`, `Cycle::build`'s before-first sentinel. -/
def USIZE_MAX : Nat := 2 ^ 64 - 1

/-- `ds::Cycle`. -/
structure Cycle where
  id : Int
  daily_plan : DailyPlan
  curr_sector : Nat
deriving DecidableEq, Repr

/-- `Cycle::next_sector`: `curr_sector.wrapping_add(1)`, then fetch. -/
def Cycle.next_sector (c : Cycle) : Cycle × Option WaterSector :=
  let idx := (c.curr_sector + 1) % 2 ^ 64
  ({ c with curr_sector := idx }, c.daily_plan.get? idx)

/-- `Cycle::build`; the source `assert!`s the plan non-empty (`none` = panic). -/
def Cycle.build (daily_plan : DailyPlan) : Option Cycle :=
  match daily_plan with
  | [] => none
  | x :: _ => some ⟨x.start, daily_plan, USIZE_MAX⟩

/-- `DailyPlan::is_watering_time`. -/
def is_watering_time (p : DailyPlan) (current_time : Int) : Bool :=
  match p with
  | [] => false
  | first :: _ => decide (first.start ≤ current_time)

/-- `DailyPlan::get_cycle` (the inner `Cycle::build` assertion is unreachable
because `is_watering_time` is false on an empty plan). -/
def get_cycle (p : DailyPlan) (current_time : Int) : Option Cycle :=
  if is_watering_time p current_time then Cycle.build p else none

/-- `state_machine::StateMachine` (controller, db and config are external;
`auto_schedule` is only consulted by `do_daily_adjustments`). -/
structure StateMachine where
  sectors : List SectorInfo
  timeframe : WaterWin
  state : SMState
  current_mode : Mode
  cycle : Option Cycle
  mode_auto_plan : List DailyPlan
  mode_wizard_plan : List DailyPlan
deriving DecidableEq, Repr

/-- Keyed update of the sector catalog (`HashMap::get_mut` + mutation). -/
def updateSector (id : Nat) (f : SectorInfo → SectorInfo)
    (sectors : List SectorInfo) : List SectorInfo :=
  sectors.map fun s => if s.id == id then f s else s

/-- `StateMachine::activate_sector` (an actuation error is logged and does not
change control flow). -/
def StateMachine.activate_sector (sm : StateMachine) (sec : WaterSector) :
    StateMachine × List Effect :=
  ({ sm with state := .watering sec }, [.activate sec.id])

/-- `StateMachine::deactivate_sector`: stamps `last_water` through an
unchecked `unwrap` of the catalog lookup (`none` = panic). -/
def StateMachine.deactivate_sector (sm : StateMachine) (current_time : Int)
    (sec : WaterSector) : Option (StateMachine × List Effect) :=
  match sm.sectors.find? (fun s => s.id == sec.id) with
  | none => none
  | some _ =>
    some ({ sm with sectors :=
              (updateSector sec.id (fun s => { s with last_water := current_time })
                sm.sectors) },
          [.deactivate sec.id])

/-- `StateMachine::update_active_sector`: accrues one second of progress, or
(when `elapsed ≥ duration`, which the caller never allows) logs the final
`WateringEvent`.  The catalog lookup is an unchecked `unwrap`. -/
def StateMachine.update_active_sector (sm : StateMachine) (sec : WaterSector)
    (current_time : Int) : Option (StateMachine × List Effect) :=
  match sm.sectors.find? (fun s => s.id == sec.id) with
  | none => none
  | some s =>
    let elapsed_secs : ℚ := ((current_time - sec.start : Int) : ℚ)
    if (sec.duration : ℚ) ≤ elapsed_secs then
      some (sm, [.logEvent ⟨none, sec, elapsed_secs * (SECS_TO_HOUR_CONV * s.sprinkler_debit),
                            sm.current_mode⟩])
    else
      some ({ sm with sectors :=
                (updateSector sec.id
                  (fun s2 => { s2 with progress :=
                      s2.progress + SECS_TO_HOUR_CONV * s2.sprinkler_debit })
                  sm.sectors) },
            [])

/-- `StateMachine::stop`: drops the cycle and removes the first plan of the
active mode; `Vec::remove(0)` panics on an empty plan list (`none`). -/
def StateMachine.stop (sm : StateMachine) : Option StateMachine :=
  let sm := { sm with cycle := none }
  match sm.current_mode with
  | .auto =>
    match sm.mode_auto_plan with
    | [] => none
    | _ :: rest => some { sm with mode_auto_plan := rest, state := .idle }
  | .wizard =>
    match sm.mode_wizard_plan with
    | [] => none
    | _ :: rest => some { sm with mode_wizard_plan := rest, state := .idle }
  | .manual => some { sm with state := .idle }

/-- `StateMachine::trans_watering` for one mode's plan list. -/
def trans_watering_plans (sm : StateMachine) (plans : List DailyPlan)
    (current_time : Int) : StateMachine × List Effect :=
  match plans with
  | [] => (sm, [])
  | p :: _ =>
    match get_cycle p current_time with
    | none => (sm, [])
    | some c =>
      let step := c.next_sector
      match step.2 with
      | some sec => StateMachine.activate_sector { sm with cycle := some step.1 } sec
      | none => (sm, [])

/-- `StateMachine::trans_watering`; the `Manual` arm is `unreachable!()` in the
source (`none` = panic), guarded by `is_auto_or_wizard` at the call site. -/
def StateMachine.trans_watering (sm : StateMachine) (current_time : Int) :
    Option (StateMachine × List Effect) :=
  match sm.current_mode with
  | .auto => some (trans_watering_plans sm sm.mode_auto_plan current_time)
  | .wizard => some (trans_watering_plans sm sm.mode_wizard_plan current_time)
  | .manual => none

/-- `StateMachine::update`: the per-tick transition. -/
def StateMachine.update (sm0 : StateMachine) (current_time : Int) :
    Option (StateMachine × List Effect) :=
  let sm := { sm0 with timeframe := sm0.timeframe.roll_window current_time }
  match sm.state with
  | .watering sec =>
    if sec.start + sec.duration ≤ current_time then
      match sm.deactivate_sector current_time sec with
      | none => none
      | some (sm1, eff1) =>
        match sm1.cycle with
        | none =>
          match sm1.stop with
          | none => none
          | some sm2 => some (sm2, eff1)
        | some c =>
          let step := c.next_sector
          let sm1' := { sm1 with cycle := some step.1 }
          match step.2 with
          | some next_sec =>
            let act := sm1'.activate_sector next_sec
            some (act.1, eff1 ++ act.2)
          | none =>
            match sm1'.stop with
            | none => none
            | some sm2 => some (sm2, eff1)
    else
      sm.update_active_sector sec current_time
  | .idle =>
    match sm.current_mode with
    | .auto => sm.trans_watering current_time
    | .wizard => sm.trans_watering current_time
    | .manual => some (sm, [])
  | .paused _ _ => some (sm, [])

/-- `StateMachine::trans_pause`. -/
def StateMachine.trans_pause (sm : StateMachine) (signal : WeatherSignal)
    (current_time : Int) : Option (StateMachine × List Effect) :=
  if sm.current_mode ≠ .wizard then some (sm, [])
  else
    match sm.state with
    | .watering sec =>
      match sm.deactivate_sector current_time sec with
      | none => none
      | some (sm1, eff) =>
        some ({ sm1 with state := .paused (.watering sec) [signal] }, eff)
    | .paused prior signals =>
      if signals.all (fun existing => !(existing == signal)) then
        some ({ sm with state := .paused prior (signals ++ [signal]) }, [])
      else some (sm, [])
    | .idle => some (sm, [])

/-- `StateMachine::trans_resume`: resumes as soon as the signal set has a
single element (whatever it is); with more elements, `retain` keeps the
signals different from the incoming stop-signal.  The `cycle` `unwrap` and the
`daily_plan[curr_sector]` index are unchecked (`none` = panic). -/
def StateMachine.trans_resume (sm : StateMachine) (env_signal : WeatherSignal)
    (current_time : Int) : Option (StateMachine × List Effect) :=
  match env_signal with
  | .windLow | .rainStop =>
    match sm.state with
    | .paused prior signals =>
      if signals.length == 1 then
        let sm1 := { sm with state := prior }
        if sm1.timeframe.is_within current_time then
          match sm1.cycle with
          | none => none
          | some c =>
            match c.daily_plan.get? c.curr_sector with
            | none => none
            | some sec => some (sm1.activate_sector sec)
        else
          match sm1.stop with
          | none => none
          | some sm2 => some (sm2, [])
      else
        some ({ sm with state :=
                  (.paused prior (signals.filter (fun s => !(s == env_signal)))) }, [])
    | _ => some (sm, [])
  | _ => some (sm, [])

/-- `StateMachine::trans_change_mode` (the `if new_mode != current` guard of
the source does not change the resulting configuration). -/
def StateMachine.trans_change_mode (sm : StateMachine) (new_mode : Mode) :
    StateMachine :=
  { sm with current_mode := new_mode }

/-- `StateMachine::handle_signal`. -/
def StateMachine.handle_signal (sm : StateMachine) (signal : CtrlSignal)
    (current_time : Int) : Option (StateMachine × List Effect) :=
  match sm.state, signal with
  | .idle, .chgMode m => some (sm.trans_change_mode m, [])
  | .idle, .weather _ => some (sm, [])
  | .idle, .stopMachine => some (sm, [])
  | .watering _, .chgMode m => some (sm.trans_change_mode m, [])
  | .watering _, .weather s => sm.trans_pause s current_time
  | .watering _, .stopMachine => some (sm.trans_change_mode .manual, [])
  | .paused _ _, .chgMode m => some (sm.trans_change_mode m, [])
  | .paused _ _, .weather s => sm.trans_resume s current_time
  | .paused _ _, .stopMachine => some (sm.trans_change_mode .manual, [])

/-- Apply a list of control signals in order at a fixed time, discarding
effects (threading only the machine). -/
def seqApply (sm : StateMachine) (t : Int) : List CtrlSignal → Option StateMachine
  | [] => some sm
  | sig :: rest =>
    match sm.handle_signal sig t with
    | none => none
    | some (sm', _) => seqApply sm' t rest

/-- `watering_alg::ScheduleType`, with chrono weekdays as `num_days_from_sunday`
indices. -/
inductive ScheduleType where
  | weekday (w : Int)
  | date (d : Int)
deriving DecidableEq, Repr

/-- `watering_alg::ScheduleEntry`. -/
structure ScheduleEntry where
  schedule_type : ScheduleType
  start_times : DailyPlan
deriving DecidableEq, Repr

/-- `watering_alg::Schedule`. -/
structure Schedule where
  entries : List ScheduleEntry
deriving DecidableEq, Repr

/-- `state_machine::load_auto_schedule`: materializes today's plans, keeping
the schedule's sector ids as they are (no validation against the catalog). -/
def load_auto_schedule (schedule : Schedule) (current_time : Int) : List DailyPlan :=
  let current_weekday := num_days_from_sunday current_time
  let day_start := sod current_time
  schedule.entries.filterMap fun entry =>
    match entry.schedule_type with
    | .weekday w =>
      if w == current_weekday then
        some (sortByStart (entry.start_times.map fun sec =>
          ⟨sec.id, day_start + sec.start, sec.duration⟩))
      else none
    | .date _ => none

/-- `SMState::is_paused`. -/
def SMState.is_paused : SMState → Bool
  | .paused _ _ => true
  | _ => false

/-- Whether an effect is a database `WateringEvent` record. -/
def Effect.isLogEvent : Effect → Bool
  | .logEvent _ => true
  | _ => false

/-! ### Concrete fixtures (used by witnesses and counterexamples) -/

/-- A sector needing its full 2.5 cm weekly target (1 cm/h, 1800 s cap). -/
def secA : SectorInfo := ⟨1, 1, 0, 1800, 5/2, 0, 0⟩

/-- A sector that already met its weekly target. -/
def secMet : SectorInfo := ⟨2, 1, 0, 1800, 5/2, 5/2, 0⟩

/-- A second needy sector, identical to `secA` but with id 2. -/
def secA2 : SectorInfo := ⟨2, 1, 0, 1800, 5/2, 0, 0⟩

/-- The default 22:00–06:00 window of the day of unix time 0. -/
def win0 : WaterWin := WaterWin.new 0 22 8

/-- A `WaterSector` run of sector 1 from time 0 for 1800 s. -/
def wsAuto : WaterSector := ⟨1, 0, 1800⟩

/-- An Auto-mode machine mid-way through watering `wsAuto` (spec scenario S1). -/
def smS1 : StateMachine :=
  { sectors := [secA], timeframe := win0, state := .watering wsAuto,
    current_mode := .auto, cycle := some ⟨0, [wsAuto], 0⟩,
    mode_auto_plan := [[wsAuto]], mode_wizard_plan := [] }

/-- A `WaterSector` run of sector 1 inside `win0`. -/
def wsWiz : WaterSector := ⟨1, 79200, 1800⟩

/-- A Wizard-mode machine watering `wsWiz`. -/
def smWizWatering : StateMachine :=
  { sectors := [secA], timeframe := win0, state := .watering wsWiz,
    current_mode := .wizard, cycle := some ⟨79200, [wsWiz], 0⟩,
    mode_auto_plan := [], mode_wizard_plan := [[wsWiz]] }

/-- A Wizard-mode machine paused by `WindHigh` (and only `WindHigh`). -/
def smPausedWind : StateMachine :=
  { sectors := [secA], timeframe := win0, state := .paused (.watering wsWiz) [.windHigh],
    current_mode := .wizard, cycle := some ⟨79200, [wsWiz], 0⟩,
    mode_auto_plan := [], mode_wizard_plan := [[wsWiz]] }

/-- An Idle machine in Auto mode. -/
def smIdleAuto : StateMachine :=
  { sectors := [secA], timeframe := win0, state := .idle,
    current_mode := .auto, cycle := none,
    mode_auto_plan := [], mode_wizard_plan := [] }

/-- A machine watering a sector whose id is absent from the catalog. -/
def smGhost : StateMachine :=
  { sectors := [], timeframe := win0, state := .watering ⟨99, 100, 60⟩,
    current_mode := .auto, cycle := none,
    mode_auto_plan := [], mode_wizard_plan := [] }

/-! ### Helper lemmas -/

/-- A keyed update hits the entry a keyed lookup found (for updates that do
not touch the id field). -/
theorem find?_updateSector {sectors : List SectorInfo} {i : Nat} {s : SectorInfo}
    (f : SectorInfo → SectorInfo) (hid : ∀ x, (f x).id = x.id)
    (h : sectors.find? (fun x => x.id == i) = some s) :
    (updateSector i f sectors).find? (fun x => x.id == i) = some (f s) := by
  induction sectors with
  | nil => simp at h
  | cons a rest ih =>
    by_cases ha : a.id = i
    · have h1 : (a.id == i) = true := by simp [ha]
      have h2 : a = s := by simpa [List.find?, h1] using h
      subst h2
      simp [updateSector, List.find?, h1, ha, hid]
    · have h1 : (a.id == i) = false := by simp [ha]
      have h2 : rest.find? (fun x => x.id == i) = some s := by
        simpa [List.find?, h1] using h
      have h3 := ih h2
      simpa [updateSector, List.find?, h1, ha] using h3

/-! ### C6 — window rolling -/

/-- C6 (amended): `roll_window` shifts the window by one day when `t` is past
the end and leaves it alone otherwise; `t ≤ end` holds afterwards whenever `t`
is at most one day past the old end, but a single call never repeats the
shift. -/
theorem roll_window_spec (w : WaterWin) (t : Int) :
    (t ≤ w.day_end_time → w.roll_window t = w)
    ∧ (w.day_end_time < t →
        (w.roll_window t).day_start_time = w.day_start_time + 86400
        ∧ (w.roll_window t).day_end_time = w.day_end_time + 86400)
    ∧ (t ≤ w.day_end_time + 86400 → t ≤ (w.roll_window t).day_end_time) := by
  unfold WaterWin.roll_window WaterWin.next
  refine ⟨fun h => ?_, fun h => ?_, fun h => ?_⟩
  · rw [if_neg (by omega)]
  · rw [if_pos h]
    exact ⟨rfl, rfl⟩
  · by_cases hlt : w.day_end_time < t
    · rw [if_pos hlt]; simpa using h
    · rw [if_neg hlt]; omega

/-- Witness for `roll_window_spec` at a concrete window and time one hour past
the end. -/
theorem roll_window_spec_witness :
    ((WaterWin.new 0 22 8).roll_window 111599).day_end_time = 107999 + 86400
    ∧ (111599 : Int) ≤ ((WaterWin.new 0 22 8).roll_window 111599).day_end_time := by
  have h := roll_window_spec (WaterWin.new 0 22 8) 111599
  exact ⟨(h.2.1 (by decide)).2, h.2.2 (by decide)⟩

/-- C6 counterexample: a time two days past the end is still past the end
after one `roll_window` call, so "t ≤ end afterwards" fails in general. -/
theorem roll_window_not_always_caught_up :
    ¬ ((194400 : Int) ≤ ((WaterWin.new 0 22 8).roll_window 194400).day_end_time) := by
  decide

/-! ### C7 — daily adjustment formula -/

/-- C7: one daily adjustment sets each sector's progress to
`max 0 (progress − Δ)` with
`Δ = et − rain + max 0 (percolation_rate * 0.1 * 24) + (2.5 on Monday)`. -/
theorem daily_adjust_formula (current_time : Int) (daily_et daily_rain : ℚ)
    (sectors : List SectorInfo) :
    do_daily_progress_adjust current_time daily_et daily_rain sectors
      = sectors.map (fun s =>
          { s with progress := (max 0 (s.progress - (daily_et - daily_rain +
              max 0 (s.percolation_rate * DAILY_PERCOLATION_FACTOR) +
              (if num_days_from_sunday current_time = 1 then (2.5 : ℚ) else 0)))) }) := by
  unfold do_daily_progress_adjust adjust_daily_sector_progress calc_daily_percolation
  refine List.map_congr_left fun s _ => ?_
  simp only [SectorInfo.mk.injEq, and_true, true_and]
  rw [max_comm (s.percolation_rate * DAILY_PERCOLATION_FACTOR) 0, max_comm _ (0 : ℚ)]
  by_cases h : num_days_from_sunday current_time = 1
  · rw [if_pos (decide_eq_true h), if_pos h]
    congr 1
    ring
  · rw [if_neg (by simpa using h), if_neg h]
    congr 1
    ring

/-! ### C9 — progress stays nonnegative -/

/-- C9: `progress ≥ 0` is established at load (reset to 0), preserved by the
per-second accrual (nonnegative increment when `sprinkler_debit > 0`) and
preserved by the daily adjustment (clamped at 0). -/
theorem progress_nonneg_invariant :
    (∀ (sectors : List SectorInfo) (s : SectorInfo),
        s ∈ load_sectors_into_hashmap sectors → s.progress = 0)
    ∧ (∀ (sm : StateMachine) (sec : WaterSector) (t : Int)
        (out : StateMachine × List Effect),
        (∀ s ∈ sm.sectors, 0 ≤ s.progress ∧ 0 < s.sprinkler_debit) →
        sm.update_active_sector sec t = some out →
        ∀ s ∈ out.1.sectors, 0 ≤ s.progress)
    ∧ (∀ (sectors : List SectorInfo) (daily_et daily_rain : ℚ) (new_week : Bool)
        (s : SectorInfo),
        s ∈ adjust_daily_sector_progress sectors daily_et daily_rain new_week →
        0 ≤ s.progress) := by
  refine ⟨?_, ?_, ?_⟩
  · intro sectors s hs
    obtain ⟨x, _, rfl⟩ := List.mem_map.1 hs
    rfl
  · intro sm sec t out hinv hout s hs
    unfold StateMachine.update_active_sector at hout
    cases hf : sm.sectors.find? (fun s => s.id == sec.id) with
    | none => rw [hf] at hout; exact absurd hout (by simp)
    | some s1 =>
      rw [hf] at hout
      dsimp only at hout
      by_cases hd : ((sec.duration : ℚ)) ≤ ((t - sec.start : Int) : ℚ)
      · rw [if_pos hd] at hout
        cases hout
        exact (hinv s hs).1
      · rw [if_neg hd] at hout
        cases hout
        simp only [updateSector] at hs
        obtain ⟨x, hx, rfl⟩ := List.mem_map.1 hs
        by_cases hxe : x.id == sec.id
        · rw [if_pos hxe]
          have h1 := (hinv x hx).1
          have h2 := (hinv x hx).2
          have hconv : (0 : ℚ) < SECS_TO_HOUR_CONV := by norm_num [SECS_TO_HOUR_CONV]
          have := mul_pos hconv h2
          simpa using by linarith
        · rw [if_neg hxe]
          exact (hinv x hx).1
  · intro sectors daily_et daily_rain new_week s hs
    unfold adjust_daily_sector_progress at hs
    obtain ⟨x, _, rfl⟩ := List.mem_map.1 hs
    exact le_max_right _ _

/-- Witness for `progress_nonneg_invariant` at concrete inputs: a reset
catalog, an accrual tick on `smS1` at t = 1, and one adjustment. -/
theorem progress_nonneg_invariant_witness :
    secA.progress = 0
    ∧ (∀ s ∈ ((StateMachine.update_active_sector smS1 wsAuto 1).getD (smS1, [])).1.sectors,
        0 ≤ s.progress)
    ∧ (∀ s ∈ adjust_daily_sector_progress [secA] 1 0 true, 0 ≤ s.progress) := by
  refine ⟨?_, ?_, ?_⟩
  · exact progress_nonneg_invariant.1 [⟨1, 1, 0, 1800, 5/2, 7, 0⟩] secA (by decide)
  · intro s hs
    exact progress_nonneg_invariant.2.1 smS1 wsAuto 1
      ((StateMachine.update_active_sector smS1 wsAuto 1).getD (smS1, []))
      (by decide) (by decide) s hs
  · intro s hs
    exact progress_nonneg_invariant.2.2 [secA] 1 0 true s hs

/-! ### C10 — unchecked catalog lookups -/

/-- C10: the unchecked lookups of `deactivate_sector`, `update_active_sector`
and `trans_resume` cannot panic when the touched `WaterSector`'s id is in the
catalog (resp. the paused machine still holds a cycle with a valid index);
`load_auto_schedule` copies schedule ids into plans without validating them
against the catalog, and updating a machine watering such an unvalidated id
panics. -/
theorem catalog_lookup_safety :
    (∀ (sm : StateMachine) (t : Int) (sec : WaterSector),
        sec.id ∈ sm.sectors.map SectorInfo.id →
        (sm.deactivate_sector t sec).isSome)
    ∧ (∀ (sm : StateMachine) (sec : WaterSector) (t : Int),
        sec.id ∈ sm.sectors.map SectorInfo.id →
        (sm.update_active_sector sec t).isSome)
    ∧ (∀ (sm : StateMachine) (sig : WeatherSignal) (t : Int) (prior : SMState)
        (signals : List WeatherSignal) (c : Cycle),
        sm.state = .paused prior signals → sm.cycle = some c →
        c.curr_sector < c.daily_plan.length →
        sm.timeframe.is_within t = true →
        (sm.trans_resume sig t).isSome)
    ∧ (load_auto_schedule ⟨[⟨.weekday 4, [⟨99, 100, 60⟩]⟩]⟩ 0 = [[⟨99, 100, 60⟩]]
        ∧ smGhost.sectors.find? (fun s => s.id == 99) = none
        ∧ StateMachine.update smGhost 160 = none) := by
  have hfind : ∀ (sectors : List SectorInfo) (i : Nat), i ∈ sectors.map SectorInfo.id →
      ∃ s, sectors.find? (fun x => x.id == i) = some s := by
    intro sectors i hi
    obtain ⟨s, hs, hid⟩ := List.mem_map.1 hi
    have : (sectors.find? (fun x => x.id == i)).isSome :=
      List.find?_isSome.2 ⟨s, hs, by simp [hid]⟩
    exact Option.isSome_iff_exists.1 this
  refine ⟨?_, ?_, ?_, by decide, by decide, by decide⟩
  · intro sm t sec hmem
    obtain ⟨s, hf⟩ := hfind sm.sectors sec.id hmem
    simp [StateMachine.deactivate_sector, hf]
  · intro sm sec t hmem
    obtain ⟨s, hf⟩ := hfind sm.sectors sec.id hmem
    unfold StateMachine.update_active_sector
    rw [hf]
    dsimp only
    by_cases hd : ((sec.duration : ℚ)) ≤ ((t - sec.start : Int) : ℚ)
    · rw [if_pos hd]; rfl
    · rw [if_neg hd]; rfl
  · intro sm sig t prior signals c hst hcyc hidx hwin
    have hget : c.daily_plan.get? c.curr_sector = some (c.daily_plan.get ⟨_, hidx⟩) :=
      List.get?_eq_get hidx
    cases sig
    case rainStart => simp [StateMachine.trans_resume]
    case windHigh => simp [StateMachine.trans_resume]
    all_goals
      unfold StateMachine.trans_resume
      rw [hst]
      dsimp only
      by_cases hlen : (signals.length == 1) = true
      · rw [if_pos hlen, if_pos hwin, hcyc]
        dsimp only
        rw [hget]
        rfl
      · rw [if_neg hlen]
        rfl

/-- Witness for `catalog_lookup_safety` at concrete machines. -/
theorem catalog_lookup_safety_witness :
    (StateMachine.deactivate_sector smS1 42 wsAuto).isSome
    ∧ (StateMachine.update_active_sector smS1 wsAuto 1).isSome
    ∧ (StateMachine.trans_resume smPausedWind .rainStop 80000).isSome := by
  refine ⟨?_, ?_, ?_⟩
  · exact catalog_lookup_safety.1 smS1 42 wsAuto (by decide)
  · exact catalog_lookup_safety.2.1 smS1 wsAuto 1 (by decide)
  · exact catalog_lookup_safety.2.2.1 smPausedWind .rainStop 80000
      (.watering wsWiz) [.windHigh] ⟨79200, [wsWiz], 0⟩ rfl rfl (by decide) (by decide)

/-! ### C5 — StopMachine versus ChgMode(Manual) -/

/-- C5 counterexample: on an Idle machine in Auto mode, `StopMachine` is a
no-op (mode stays Auto) while `ChgMode(Manual)` switches the mode, so the two
signals are not equivalent in every state. -/
theorem stop_machine_differs_in_idle :
    StateMachine.handle_signal smIdleAuto .stopMachine 0
      ≠ StateMachine.handle_signal smIdleAuto (.chgMode .manual) 0
    ∧ (StateMachine.handle_signal smIdleAuto .stopMachine 0).map (·.1.current_mode)
        = some .auto
    ∧ (StateMachine.handle_signal smIdleAuto (.chgMode .manual) 0).map (·.1.current_mode)
        = some .manual := by
  decide

/-- C5 (amended): in the Watering and Paused states `StopMachine` is handled
exactly like `ChgMode(Manual)` (mode set to Manual, no valve effect); in Idle
it is ignored and the machine, mode included, is unchanged. -/
theorem stop_machine_amended (sm : StateMachine) (t : Int) :
    (sm.state ≠ .idle →
      sm.handle_signal .stopMachine t = sm.handle_signal (.chgMode .manual) t)
    ∧ (sm.state = .idle → sm.handle_signal .stopMachine t = some (sm, [])) := by
  obtain ⟨secs, tfm, st, md, cyc, ap, wp⟩ := sm
  cases st <;> refine ⟨fun h => ?_, fun h => ?_⟩ <;>
    first
      | rfl
      | exact absurd rfl h
      | simp at h

/-- Witness for `stop_machine_amended` on a concrete Watering machine and a
concrete Idle machine. -/
theorem stop_machine_amended_witness :
    StateMachine.handle_signal smWizWatering .stopMachine 0
      = StateMachine.handle_signal smWizWatering (.chgMode .manual) 0
    ∧ StateMachine.handle_signal smIdleAuto .stopMachine 0 = some (smIdleAuto, []) := by
  exact ⟨(stop_machine_amended smWizWatering 0).1 (by decide),
         (stop_machine_amended smIdleAuto 0).2 rfl⟩

/-! ### C1 — planner empties the plan when any sector met its target -/

/-- C1: `generate_daily_plan` returns no plan for `[secA, secMet]` although
`secA` still needs 2.5 cm (more than its capacity with zero days of slack) and
its irrigation time exceeds the 300 s threshold — the same needy sector alone
yields a two-session plan.  The day-skip test uses `all` (every sector needy)
where its own comment says "skip this day if no sector needs watering". -/
theorem generate_daily_plan_drops_needy_sector :
    generate_daily_plan [secA, secMet] 1 win0 = []
    ∧ generate_daily_plan [secA] 1 win0 = [[⟨1, 106179, 1800⟩], [⟨1, 165600, 1800⟩]]
    ∧ ((secA.max_duration : ℚ) / 3600) * secA.sprinkler_debit * ((1 - 1 : Int) : ℚ)
        < max (secA.weekly_target - secA.progress) 0
    ∧ 300 < (calc_irrigation_time secA).getD 0
    ∧ secMet.progress = secMet.weekly_target := by
  refine ⟨by decide, by decide, by decide, by decide, by decide⟩

/-! ### C2 — completion tick logs no WateringEvent -/

/-- C2: on the first tick past `start + duration`, `update` deactivates the
valve and stamps `last_water`, but logs no `WateringEvent`: the logging branch
lives in `update_active_sector`, which `update` only calls while
`now < start + duration`. -/
theorem update_completion_logs_no_event :
    StateMachine.update smS1 1800
      = some ({ smS1 with
                  sectors := [{ secA with last_water := 1800 }],
                  cycle := none,
                  mode_auto_plan := [],
                  state := .idle },
              [.deactivate 1])
    ∧ (StateMachine.update smS1 1800).map (fun r => r.2.filter Effect.isLogEvent)
        = some [] := by
  refine ⟨by decide, by decide⟩

/-! ### C3 — resume ignores which stop-signal arrived -/

/-- C3: a machine Paused with active set exactly `{WindHigh}` that receives
`RainStop` resumes watering instead of staying paused: `trans_resume` only
checks `signals.len() == 1`, never that the stop-signal matches the stored
start-signal. -/
theorem resume_ignores_signal_matching :
    (StateMachine.handle_signal smPausedWind (.weather .rainStop) 80000).map (·.1.state)
      = some (.watering wsWiz)
    ∧ (StateMachine.handle_signal smPausedWind (.weather .rainStop) 80000).map
        (fun r => r.1.state.is_paused) = some false := by
  refine ⟨by decide, by decide⟩

/-! ### C4 — rain pause/resume round trip -/

/-- C4 counterexample: from `Watering(ws)` inside the window, the pair
`RainStart, RainStop` returns to `Watering(ws)`, but the four-signal sequence
`RainStart, RainStart, RainStop, RainStop` ends `Paused` (the second
`RainStop` arrives while Watering and `trans_pause` pauses on *any* weather
signal), so the two sequences do not end in the same state. -/
theorem rain_pair_vs_double_pair :
    (seqApply smWizWatering 80000 [.weather .rainStart, .weather .rainStop]).map
        (·.state) = some (.watering wsWiz)
    ∧ (seqApply smWizWatering 80000
        [.weather .rainStart, .weather .rainStart,
         .weather .rainStop, .weather .rainStop]).map (·.state)
        = some (.paused (.watering wsWiz) [.rainStop])
    ∧ (seqApply smWizWatering 80000 [.weather .rainStart, .weather .rainStop]).map
        (·.state)
      ≠ (seqApply smWizWatering 80000
          [.weather .rainStart, .weather .rainStart,
           .weather .rainStop, .weather .rainStop]).map (·.state) := by
  refine ⟨by decide, by decide, by decide⟩

/-- C4 (amended): in Wizard mode with an active cycle, `RainStart` then
`RainStop` from `Watering(ws)` returns to `Watering(ws)` inside the window and
to `Idle` outside it, and a duplicate `RainStart` while Paused is idempotent;
but the four-signal sequence `RainStart, RainStart, RainStop, RainStop` ends
in `Paused{prior: Watering(ws), signals: [RainStop]}` rather than in the
pair's final state, because a stop-signal arriving while Watering pauses the
machine. -/
theorem rain_pause_resume_amended (sm : StateMachine) (ws : WaterSector)
    (s0 : SectorInfo) (c : Cycle) (t : Int)
    (hmode : sm.current_mode = .wizard)
    (hstate : sm.state = .watering ws)
    (hfind : sm.sectors.find? (fun s => s.id == ws.id) = some s0)
    (hcyc : sm.cycle = some c)
    (hidx : c.daily_plan.get? c.curr_sector = some ws)
    (hplan : sm.mode_wizard_plan ≠ []) :
    (sm.timeframe.is_within t = true →
      (seqApply sm t [.weather .rainStart, .weather .rainStop]).map (·.state)
          = some (.watering ws)
      ∧ (seqApply sm t [.weather .rainStart, .weather .rainStart,
            .weather .rainStop, .weather .rainStop]).map (·.state)
          = some (.paused (.watering ws) [.rainStop]))
    ∧ (sm.timeframe.is_within t = false →
        (seqApply sm t [.weather .rainStart, .weather .rainStop]).map (·.state)
          = some .idle)
    ∧ seqApply sm t [.weather .rainStart, .weather .rainStart]
        = seqApply sm t [.weather .rainStart] := by
  obtain ⟨secs, tfm, st, md, cyc0, ap, wp⟩ := sm
  dsimp only at hmode hstate hfind hcyc hplan ⊢
  subst hmode hstate hcyc
  have hfind2 : (updateSector ws.id (fun s => { s with last_water := t }) secs).find?
      (fun s => s.id == ws.id) = some { s0 with last_water := t } :=
    find?_updateSector _ (fun _ => rfl) hfind
  obtain ⟨w0, wrest, rfl⟩ : ∃ w0 wrest, wp = w0 :: wrest := by
    cases wp with
    | nil => exact absurd rfl hplan
    | cons w0 wrest => exact ⟨w0, wrest, rfl⟩
  simp only [List.get?_eq_getElem?] at hidx
  refine ⟨fun hwin => ⟨?_, ?_⟩, fun hwin => ?_, ?_⟩
  · simp [seqApply, StateMachine.handle_signal, StateMachine.trans_pause,
      StateMachine.trans_resume, StateMachine.deactivate_sector,
      StateMachine.activate_sector, StateMachine.stop, hfind, hfind2, hidx, hwin]
  · simp [seqApply, StateMachine.handle_signal, StateMachine.trans_pause,
      StateMachine.trans_resume, StateMachine.deactivate_sector,
      StateMachine.activate_sector, StateMachine.stop, hfind, hfind2, hidx, hwin]
  · simp [seqApply, StateMachine.handle_signal, StateMachine.trans_pause,
      StateMachine.trans_resume, StateMachine.deactivate_sector,
      StateMachine.activate_sector, StateMachine.stop, hfind, hfind2, hidx, hwin]
  · simp [seqApply, StateMachine.handle_signal, StateMachine.trans_pause,
      StateMachine.trans_resume, StateMachine.deactivate_sector,
      StateMachine.activate_sector, StateMachine.stop, hfind, hfind2, hidx]

/-! ### C8 helper lemmas — planner pass invariants and sorting -/

/-- A morning `planSector` step either pushes nothing and keeps the cursor, or
pushes an element whose run (plus slack) ends exactly at the old cursor, moving
the cursor to its start; pushed durations exceed 300 s. -/
theorem planSector_morning_spec (rd : Int) (s : SectorInfo) (wt : Int) :
    ((planSector rd true s wt).2.1 = none ∧ (planSector rd true s wt).2.2.2 = wt)
    ∨ (∃ x, (planSector rd true s wt).2.1 = some x
        ∧ (planSector rd true s wt).2.2.2 = x.start
        ∧ 300 < x.duration
        ∧ x.start + x.duration + SECTOR_TRANSITION_SECS = wt) := by
  unfold planSector
  dsimp only
  split
  · exact Or.inl ⟨rfl, rfl⟩
  · split
    · exact Or.inl ⟨rfl, rfl⟩
    · rename_i h
      refine Or.inr ⟨_, rfl, rfl, by dsimp only [cond]; omega, by dsimp only [cond]; omega⟩

/-- An evening `planSector` step either pushes nothing and keeps the cursor,
or pushes an element starting at the old cursor, moving the cursor past its
run plus slack; pushed durations exceed 300 s. -/
theorem planSector_evening_spec (rd : Int) (s : SectorInfo) (wt : Int) :
    ((planSector rd false s wt).2.1 = none ∧ (planSector rd false s wt).2.2.2 = wt)
    ∨ (∃ x, (planSector rd false s wt).2.1 = some x
        ∧ x.start = wt
        ∧ 300 < x.duration
        ∧ (planSector rd false s wt).2.2.2
            = x.start + x.duration + SECTOR_TRANSITION_SECS) := by
  unfold planSector
  dsimp only
  split
  · exact Or.inl ⟨rfl, rfl⟩
  · split
    · exact Or.inl ⟨rfl, rfl⟩
    · rename_i h
      refine Or.inr ⟨_, rfl, rfl, by dsimp only [cond]; omega, by dsimp only [cond]⟩

/-- Invariant of the morning pass: all planned runs fit (with slack) below the
initial cursor and consecutive pushes descend, each ending exactly at the
previous start. -/
theorem planPass_morning_inv (rd : Int) (sectors : List SectorInfo) :
    ∀ wt : Int,
      (∀ x ∈ (planPass rd true sectors wt).2.1,
          300 < x.duration ∧ x.start + x.duration + SECTOR_TRANSITION_SECS ≤ wt)
      ∧ List.Chain'
          (fun a b => b.start + b.duration + SECTOR_TRANSITION_SECS ≤ a.start)
          (planPass rd true sectors wt).2.1 := by
  induction sectors with
  | nil => intro wt; exact ⟨fun x hx => absurd hx (by simp [planPass]), by simp [planPass]⟩
  | cons s rest ih =>
    intro wt
    have hS : SECTOR_TRANSITION_SECS = 20 := rfl
    have hpe : (planPass rd true (s :: rest) wt).2.1
        = (planSector rd true s wt).2.1.toList
          ++ (planPass rd true rest ((planSector rd true s wt).2.2.2)).2.1 := by
      simp [planPass]
    rcases planSector_morning_spec rd s wt with ⟨hn, hw⟩ | ⟨x, hs, hw, hdur, heq⟩
    · rw [hpe, hn, hw]
      simpa using ih wt
    · rw [hpe, hs, hw]
      obtain ⟨hall, hchain⟩ := ih x.start
      constructor
      · intro y hy
        rcases List.mem_cons.1 (by simpa using hy) with rfl | hy'
        · exact ⟨hdur, by omega⟩
        · obtain ⟨hd', hb⟩ := hall y hy'
          exact ⟨hd', by omega⟩
      · rw [Option.toList_some, List.singleton_append, List.chain'_cons']
        refine ⟨?_, hchain⟩
        intro y hy
        exact (hall y (List.mem_of_mem_head? hy)).2

/-- Invariant of the evening pass: all planned runs start at or after the
initial cursor and consecutive pushes ascend with the slack gap. -/
theorem planPass_evening_inv (rd : Int) (sectors : List SectorInfo) :
    ∀ wt : Int,
      (∀ x ∈ (planPass rd false sectors wt).2.1,
          300 < x.duration ∧ wt ≤ x.start)
      ∧ List.Chain'
          (fun a b => a.start + a.duration + SECTOR_TRANSITION_SECS ≤ b.start)
          (planPass rd false sectors wt).2.1 := by
  induction sectors with
  | nil => intro wt; exact ⟨fun x hx => absurd hx (by simp [planPass]), by simp [planPass]⟩
  | cons s rest ih =>
    intro wt
    have hS : SECTOR_TRANSITION_SECS = 20 := rfl
    have hpe : (planPass rd false (s :: rest) wt).2.1
        = (planSector rd false s wt).2.1.toList
          ++ (planPass rd false rest ((planSector rd false s wt).2.2.2)).2.1 := by
      simp [planPass]
    rcases planSector_evening_spec rd s wt with ⟨hn, hw⟩ | ⟨x, hs, hstart, hdur, hw⟩
    · rw [hpe, hn, hw]
      simpa using ih wt
    · rw [hpe, hs, hw]
      obtain ⟨hall, hchain⟩ := ih (x.start + x.duration + SECTOR_TRANSITION_SECS)
      constructor
      · intro y hy
        rcases List.mem_cons.1 (by simpa using hy) with rfl | hy'
        · exact ⟨hdur, by omega⟩
        · obtain ⟨hd', hb⟩ := hall y hy'
          exact ⟨hd', by omega⟩
      · rw [Option.toList_some, List.singleton_append, List.chain'_cons']
        refine ⟨?_, hchain⟩
        intro y hy
        exact (hall y (List.mem_of_mem_head? hy)).2

/-- A plan produced by a morning `get_next_watering_for_day` has all durations
above 300 s and descends with the slack gap (in push order). -/
theorem get_next_morning_ok {sectors : List SectorInfo} {tf : WaterWin} {rd : Int}
    {p : DailyPlan}
    (h : (get_next_watering_for_day sectors tf rd true).2.2 = some p) :
    (∀ x ∈ p, 300 < x.duration)
    ∧ List.Chain' (fun a b => b.start + b.duration + SECTOR_TRANSITION_SECS ≤ a.start) p := by
  unfold get_next_watering_for_day at h
  dsimp only at h
  split at h
  · exact absurd h (by simp)
  · have h' := Option.some.inj h
    subst h'
    obtain ⟨hall, hchain⟩ := planPass_morning_inv rd sectors.reverse tf.day_end_time
    exact ⟨fun x hx => (hall x hx).1, hchain⟩

/-- A plan produced by an evening `get_next_watering_for_day` has all
durations above 300 s and ascends with the slack gap. -/
theorem get_next_evening_ok {sectors : List SectorInfo} {tf : WaterWin} {rd : Int}
    {p : DailyPlan}
    (h : (get_next_watering_for_day sectors tf rd false).2.2 = some p) :
    (∀ x ∈ p, 300 < x.duration)
    ∧ List.Chain' (fun a b => a.start + a.duration + SECTOR_TRANSITION_SECS ≤ b.start) p := by
  unfold get_next_watering_for_day at h
  dsimp only at h
  split at h
  · exact absurd h (by simp)
  · have h' := Option.some.inj h
    subst h'
    obtain ⟨hall, hchain⟩ := planPass_evening_inv rd sectors tf.day_start_time
    exact ⟨fun x hx => (hall x hx).1, hchain⟩

/-- Every plan emitted by the `generate_daily_plan` loop is a single morning
or evening pass: durations above 300 s and a slack-gap chain in one of the
two directions. -/
theorem genLoop_plan_ok (fuel : Nat) :
    ∀ (sectors : List SectorInfo) (tf : WaterWin) (p : DailyPlan),
      p ∈ genLoop fuel sectors tf →
      (∀ x ∈ p, 300 < x.duration)
      ∧ (List.Chain' (fun a b => b.start + b.duration + SECTOR_TRANSITION_SECS ≤ a.start) p
         ∨ List.Chain' (fun a b => a.start + a.duration + SECTOR_TRANSITION_SECS ≤ b.start) p) := by
  induction fuel with
  | zero => intro _ _ p hp; exact absurd hp (by simp [genLoop])
  | succ k ih =>
    intro sectors tf p hp
    rw [genLoop] at hp
    split at hp
    · exact ih _ _ p hp
    · dsimp only at hp
      by_cases hne : (get_next_watering_for_day sectors tf (k : Int) true).2.1 = true
      · simp only [hne, cond_true] at hp
        split at hp
        · exact ih _ _ p hp
        · rcases List.mem_append.1 hp with hmor | heve
          · have hm : (get_next_watering_for_day sectors tf (k : Int) true).2.2 = some p := by
              simpa using hmor
            obtain ⟨hd, hc⟩ := get_next_morning_ok hm
            exact ⟨hd, Or.inl hc⟩
          · have he : (get_next_watering_for_day
                (get_next_watering_for_day sectors tf (k : Int) true).1
                tf.next (k : Int) false).2.2 = some p := by
              simpa using heve
            obtain ⟨hd, hc⟩ := get_next_evening_ok he
            exact ⟨hd, Or.inr hc⟩
      · simp only [Bool.not_eq_true] at hne
        simp only [hne, cond_false] at hp
        split at hp
        · exact ih _ _ p hp
        · have hm : (get_next_watering_for_day sectors tf (k : Int) true).2.2 = some p := by
            simpa using hp
          obtain ⟨hd, hc⟩ := get_next_morning_ok hm
          exact ⟨hd, Or.inl hc⟩

/-- Inserting an element whose key is above everything in the list appends it. -/
theorem insertByStart_append {x : WaterSector} {l : List WaterSector}
    (h : ∀ y ∈ l, y.start < x.start) : insertByStart x l = l ++ [x] := by
  induction l with
  | nil => rfl
  | cons y ys ih =>
    have h1 : ¬ (x.start ≤ y.start) := by
      have := h y (List.mem_cons_self _ _); omega
    simp only [insertByStart, if_neg h1, List.cons_append, List.cons.injEq, true_and]
    exact ih fun z hz => h z (List.mem_cons_of_mem _ hz)

/-- Sorting a strictly ascending list is the identity. -/
theorem sortByStart_of_lt {l : List WaterSector}
    (h : List.Pairwise (fun a b => a.start < b.start) l) : sortByStart l = l := by
  induction l with
  | nil => rfl
  | cons x xs ih =>
    have h' := List.pairwise_cons.1 h
    rw [sortByStart, ih h'.2]
    cases xs with
    | nil => rfl
    | cons y ys =>
      have hxy : x.start ≤ y.start := le_of_lt (h'.1 y (List.mem_cons_self _ _))
      simp [insertByStart, hxy]

/-- Sorting a strictly descending list reverses it. -/
theorem sortByStart_of_gt {l : List WaterSector}
    (h : List.Pairwise (fun a b => b.start < a.start) l) : sortByStart l = l.reverse := by
  induction l with
  | nil => rfl
  | cons x xs ih =>
    have h' := List.pairwise_cons.1 h
    rw [sortByStart, ih h'.2, List.reverse_cons]
    exact insertByStart_append fun y hy => h'.1 y (List.mem_reverse.1 hy)

/-- In a slack-gap chain, the head's run (plus slack) ends before every later
start, given positive durations. -/
theorem gap_chain_head_bound (l : List WaterSector) :
    ∀ x : WaterSector,
      List.Chain' (fun a b => a.start + a.duration + SECTOR_TRANSITION_SECS ≤ b.start)
        (x :: l) →
      (∀ z ∈ l, 0 < z.duration) →
      ∀ y ∈ l, x.start + x.duration + SECTOR_TRANSITION_SECS ≤ y.start := by
  induction l with
  | nil => intro x _ _ y hy; cases hy
  | cons y ys ih =>
    intro x hc hd z hz
    have hS : SECTOR_TRANSITION_SECS = 20 := rfl
    have hxy := (List.chain'_cons.1 hc).1
    rcases List.mem_cons.1 hz with rfl | hz'
    · exact hxy
    · have h2 := ih y (List.chain'_cons.1 hc).2
        (fun w hw => hd w (List.mem_cons_of_mem _ hw)) z hz'
      have hyd := hd y (List.mem_cons_self _ _)
      omega

/-- A slack-gap chain with positive durations is pairwise non-overlapping. -/
theorem gap_chain_pairwise (l : List WaterSector) :
    List.Chain' (fun a b => a.start + a.duration + SECTOR_TRANSITION_SECS ≤ b.start) l →
    (∀ z ∈ l, 0 < z.duration) →
    List.Pairwise (fun a b => a.start + a.duration ≤ b.start) l := by
  induction l with
  | nil => intro _ _; exact List.Pairwise.nil
  | cons x xs ih =>
    intro hc hd
    have hS : SECTOR_TRANSITION_SECS = 20 := rfl
    refine List.pairwise_cons.2
      ⟨?_, ih hc.tail fun z hz => hd z (List.mem_cons_of_mem _ hz)⟩
    intro y hy
    have := gap_chain_head_bound xs x hc
      (fun z hz => hd z (List.mem_cons_of_mem _ hz)) y hy
    omega

/-- A slack-gap chain with positive durations has strictly ascending starts. -/
theorem gap_chain_pairwise_lt (l : List WaterSector) :
    List.Chain' (fun a b => a.start + a.duration + SECTOR_TRANSITION_SECS ≤ b.start) l →
    (∀ z ∈ l, 0 < z.duration) →
    List.Pairwise (fun a b => a.start < b.start) l := by
  induction l with
  | nil => intro _ _; exact List.Pairwise.nil
  | cons x xs ih =>
    intro hc hd
    have hS : SECTOR_TRANSITION_SECS = 20 := rfl
    refine List.pairwise_cons.2
      ⟨?_, ih hc.tail fun z hz => hd z (List.mem_cons_of_mem _ hz)⟩
    intro y hy
    have h1 := gap_chain_head_bound xs x hc
      (fun z hz => hd z (List.mem_cons_of_mem _ hz)) y hy
    have h2 := hd x (List.mem_cons_self _ _)
    omega

/-! ### C8 — every Wizard plan is sorted with the slack gap, no overlaps -/

/-- C8: every `DailyPlan` produced by `calc_daily_plan` is sorted by start
time with `ws_next.start ≥ ws.start + ws.duration + SECTOR_TRANSITION_SECS`
between consecutive elements, and no two of its `WaterSector`s overlap. -/
theorem wizard_plan_sorted_no_overlap (sectors : List SectorInfo)
    (current_time : Int) (timeframe : WaterWin) (plan : DailyPlan)
    (hplan : plan ∈ calc_daily_plan sectors current_time timeframe) :
    List.Chain'
      (fun a b => a.start + a.duration + SECTOR_TRANSITION_SECS ≤ b.start) plan
    ∧ List.Pairwise (fun a b => a.start + a.duration ≤ b.start) plan := by
  unfold calc_daily_plan at hplan
  rcases List.mem_map.1 hplan with ⟨p, hp, rfl⟩
  obtain ⟨hdur, hchain⟩ := genLoop_plan_ok _ _ _ p hp
  have hdur' : ∀ z ∈ p, 0 < z.duration := fun z hz => by
    have := hdur z hz; omega
  rcases hchain with hrev | hfwd
  · have hgap_rev : List.Chain'
        (fun a b => a.start + a.duration + SECTOR_TRANSITION_SECS ≤ b.start)
        p.reverse := List.chain'_reverse.2 hrev
    have hdur_rev : ∀ z ∈ p.reverse, 0 < z.duration := fun z hz =>
      hdur' z (List.mem_reverse.1 hz)
    have hlt : List.Pairwise (fun a b => a.start < b.start) p.reverse :=
      gap_chain_pairwise_lt _ hgap_rev hdur_rev
    have hgt : List.Pairwise (fun a b => b.start < a.start) p :=
      List.pairwise_reverse.1 hlt
    rw [sortByStart_of_gt hgt]
    exact ⟨hgap_rev, gap_chain_pairwise _ hgap_rev hdur_rev⟩
  · have hlt : List.Pairwise (fun a b => a.start < b.start) p :=
      gap_chain_pairwise_lt _ hfwd hdur'
    rw [sortByStart_of_lt hlt]
    exact ⟨hfwd, gap_chain_pairwise _ hfwd hdur'⟩

/-- Witness for `wizard_plan_sorted_no_overlap` on the two-sector morning plan
of `calc_daily_plan [secA, secA2] 0 win0`. -/
theorem wizard_plan_sorted_no_overlap_witness :
    [(⟨1, 104359, 1800⟩ : WaterSector), ⟨2, 106179, 1800⟩]
        ∈ calc_daily_plan [secA, secA2] 0 win0
    ∧ List.Chain'
        (fun a b => a.start + a.duration + SECTOR_TRANSITION_SECS ≤ b.start)
        [(⟨1, 104359, 1800⟩ : WaterSector), ⟨2, 106179, 1800⟩]
    ∧ List.Pairwise (fun a b => a.start + a.duration ≤ b.start)
        [(⟨1, 104359, 1800⟩ : WaterSector), ⟨2, 106179, 1800⟩] := by
  have h := wizard_plan_sorted_no_overlap [secA, secA2] 0 win0
    [⟨1, 104359, 1800⟩, ⟨2, 106179, 1800⟩] (by decide)
  exact ⟨by decide, h.1, h.2⟩

/-- Witness for `rain_pause_resume_amended` on `smWizWatering` at t = 80000
(inside the window). -/
theorem rain_pause_resume_amended_witness :
    smWizWatering.timeframe.is_within 80000 = true
    ∧ (seqApply smWizWatering 80000 [.weather .rainStart, .weather .rainStop]).map
        (·.state) = some (.watering wsWiz)
    ∧ seqApply smWizWatering 80000 [.weather .rainStart, .weather .rainStart]
        = seqApply smWizWatering 80000 [.weather .rainStart] := by
  have h := rain_pause_resume_amended smWizWatering wsWiz secA ⟨79200, [wsWiz], 0⟩ 80000
    rfl rfl (by decide) rfl (by decide) (by decide)
  exact ⟨by decide, (h.1 (by decide)).1, h.2.2⟩

end Nic
